import Mathlib

/-!
Verification of the content-addressable caching / deduplication core of the
widgera backend (`backend/app/routes_llm.py`, `backend/app/storage.py`,
`backend/app/models.py`, `backend/app/schemas.py`).

The Python code is shallowly embedded:
* the relational store (SQLAlchemy session over Postgres) becomes an explicit
  `DB` state record threaded through each operation; unique-constraint
  violations on insert become an `IntegrityError` value, matching the
  constraints declared in `models.py`;
* the MinIO blob store becomes the `blobs` association list inside `DB`;
* `uuid.uuid4()` is modelled as drawing from the fresh-identifier supply
  `DB.nextId` (fresh draws never repeat, which is the property the code
  relies on and the object-key unique constraint enforces);
* the OpenAI chat completion is an opaque input value (`ModelCompletion`)
  passed to `structured_query`; the `calledModel` flag of the outcome records
  whether the code path that consults it was reached;
* Python `json.loads` is embedded as the fuel-based `parseJson` below, and
  `json.dumps(value)` round-trips with it, so cache rows store the parsed
  `Json` value (`none` standing for the unset `response_json = ""`).
-/

set_option linter.unusedVariables false

namespace Widgera

/-! ## Field definitions and the JSON-schema builder (`build_json_schema`) -/

/-- A field definition as it reaches `build_json_schema`.  At the HTTP
boundary `schemas.FieldDefinition` constrains `type` to the literals
`"string"`/`"number"` and `name` to length 1..100, but the builder itself
receives the runtime values, so `type` is embedded as a plain `String`. -/
structure FieldDef where
  name : String
  type : String
deriving DecidableEq, Repr

/-- Python `dict` assignment `d[k] = v`: updates the value in place when the
key is present (keeping its position), otherwise appends the binding. -/
def dictInsert {α : Type} (d : List (String × α)) (k : String) (v : α) :
    List (String × α) :=
  if d.any (fun p => p.1 == k) then
    d.map (fun p => if p.1 == k then (k, v) else p)
  else d ++ [(k, v)]

/-- Python `dict` lookup `d.get(k)`: value of the (unique) binding of `k`. -/
def alookup {α : Type} (d : List (String × α)) (k : String) : Option α :=
  (d.find? (fun p => p.1 == k)).map Prod.snd

/-- The dictionary returned by `build_json_schema`: `{"type": "object",
"properties": ..., "required": ..., "additionalProperties": False}`.  Each
properties entry `name ↦ t` stands for the sub-dictionary `{"type": t}`. -/
structure JsonSchema where
  type : String
  properties : List (String × String)
  required : List String
  additionalProperties : Bool
deriving DecidableEq, Repr

/-- The `for f in fields` loop of `build_json_schema`, carrying the
`properties` dict and `required` list accumulated so far.  Raising
`ValueError` is embedded as `Except.error` with the message text. -/
def schemaLoop : List FieldDef → List (String × String) → List String →
    Except String JsonSchema
  | [], props, req =>
    .ok { type := "object", properties := props, required := req,
          additionalProperties := false }
  | f :: fs, props, req =>
    if f.type == "string" then
      schemaLoop fs (dictInsert props f.name "string") (req ++ [f.name])
    else if f.type == "number" then
      schemaLoop fs (dictInsert props f.name "number") (req ++ [f.name])
    else
      .error ("Unsupported field type: " ++ f.type)

/-- `build_json_schema` from `routes_llm.py`. -/
def build_json_schema (fields : List FieldDef) : Except String JsonSchema :=
  schemaLoop fields [] []

/-- Declared type of the last occurrence of name `n` in `fields`
(`none` when no field is named `n`). -/
def lastType : List FieldDef → String → Option String
  | [], _ => none
  | f :: fs, n =>
    match lastType fs n with
    | some t => some t
    | none => if f.name == n then some f.type else none

/-- The step function of the `build_json_schema` loop on the properties dict. -/
def propStep (d : List (String × String)) (f : FieldDef) : List (String × String) :=
  dictInsert d f.name f.type

/-! ## JSON values and `json.loads` -/

/-- A Python value produced by `json.loads`: `None`, `bool`, numbers (kept as
their source lexeme — no claim depends on numeric semantics), `str`, `list`,
`dict` (insertion-ordered, unique keys). -/
inductive Json where
  | null
  | bool (b : Bool)
  | num (lexeme : String)
  | str (s : String)
  | arr (xs : List Json)
  | obj (kvs : List (String × Json))

/-- JSON whitespace accepted by the `json` module scanner. -/
def isJsonWs (c : Char) : Bool :=
  c == ' ' || c == '\t' || c == '\n' || c == '\r'

def skipWs : List Char → List Char
  | [] => []
  | c :: cs => if isJsonWs c then skipWs cs else c :: cs

/-- Value of a hexadecimal digit, `none` for a non-hex character. -/
def hexVal (c : Char) : Option Nat :=
  if '0' ≤ c ∧ c ≤ '9' then some (c.toNat - 48)
  else if 'a' ≤ c ∧ c ≤ 'f' then some (c.toNat - 87)
  else if 'A' ≤ c ∧ c ≤ 'F' then some (c.toNat - 55)
  else none

/-- Four hex digits of a `\uXXXX` escape. -/
def parseHex4 : List Char → Option (Nat × List Char)
  | a :: b :: c :: d :: rest =>
    match hexVal a, hexVal b, hexVal c, hexVal d with
    | some x, some y, some z, some w => some (((x * 16 + y) * 16 + z) * 16 + w, rest)
    | _, _, _, _ => none
  | _ => none

/-- Single-character JSON backslash escapes. -/
def escChar (c : Char) : Option Char :=
  if c = '"' then some '"'
  else if c = '\\' then some '\\'
  else if c = '/' then some '/'
  else if c = 'b' then some (Char.ofNat 8)
  else if c = 'f' then some (Char.ofNat 12)
  else if c = 'n' then some '\n'
  else if c = 'r' then some '\r'
  else if c = 't' then some '\t'
  else none

/-- Body of a JSON string after the opening quote, per the strict scanner:
ends at the closing quote, decodes backslash escapes (`\uXXXX` including
surrogate pairs), rejects raw control characters below 0x20.  (A lone
surrogate, which Python would keep in the decoded `str`, has no `Char`
representation; it only affects inputs no claim touches.) -/
def parseStringChars : Nat → List Char → Option (List Char × List Char)
  | 0, _ => none
  | _ + 1, [] => none
  | fuel + 1, c :: cs =>
    if c = '"' then some ([], cs)
    else if c = '\\' then
      match cs with
      | [] => none
      | e :: cs1 =>
        if e = 'u' then
          match parseHex4 cs1 with
          | none => none
          | some (n, cs2) =>
            if 55296 ≤ n ∧ n ≤ 56319 then
              match cs2 with
              | '\\' :: 'u' :: cs3 =>
                match parseHex4 cs3 with
                | some (m, cs4) =>
                  if 56320 ≤ m ∧ m ≤ 57343 then
                    match parseStringChars fuel cs4 with
                    | some (out, rest) =>
                      some (Char.ofNat (65536 + (n - 55296) * 1024 + (m - 56320)) :: out, rest)
                    | none => none
                  else
                    match parseStringChars fuel cs2 with
                    | some (out, rest) => some (Char.ofNat n :: out, rest)
                    | none => none
                | none =>
                  match parseStringChars fuel cs2 with
                  | some (out, rest) => some (Char.ofNat n :: out, rest)
                  | none => none
              | _ =>
                match parseStringChars fuel cs2 with
                | some (out, rest) => some (Char.ofNat n :: out, rest)
                | none => none
            else
              match parseStringChars fuel cs2 with
              | some (out, rest) => some (Char.ofNat n :: out, rest)
              | none => none
        else
          match escChar e with
          | none => none
          | some ec =>
            match parseStringChars fuel cs1 with
            | some (out, rest) => some (ec :: out, rest)
            | none => none
    else if c.toNat < 32 then none
    else
      match parseStringChars fuel cs with
      | some (out, rest) => some (c :: out, rest)
      | none => none

/-- Longest digit run at the head of the input. -/
def takeDigits : List Char → List Char × List Char
  | [] => ([], [])
  | c :: cs =>
    if c.isDigit then
      let (ds, rest) := takeDigits cs
      (c :: ds, rest)
    else ([], c :: cs)

/-- Integer part of the JSON number grammar: `0`, or a nonzero digit followed
by digits. -/
def parseIntPart : List Char → Option (List Char × List Char)
  | [] => none
  | c :: cs =>
    if c = '0' then some ([c], cs)
    else if c.isDigit then
      let (ds, rest) := takeDigits cs
      some (c :: ds, rest)
    else none

/-- Optional fraction group `(\.\d+)?`: consumed only when a digit follows
the dot. -/
def parseFracPart : List Char → List Char × List Char
  | '.' :: cs =>
    let (ds, rest) := takeDigits cs
    if ds.isEmpty then ([], '.' :: cs) else ('.' :: ds, rest)
  | cs => ([], cs)

/-- Optional exponent group `([eE][-+]?\d+)?`. -/
def parseExpPart : List Char → List Char × List Char
  | [] => ([], [])
  | c :: cs =>
    if c = 'e' ∨ c = 'E' then
      match cs with
      | s :: cs1 =>
        if s = '+' ∨ s = '-' then
          let (ds, rest) := takeDigits cs1
          if ds.isEmpty then ([], c :: s :: cs1) else (c :: s :: ds, rest)
        else
          let (ds, rest) := takeDigits cs
          if ds.isEmpty then ([], c :: cs) else (c :: ds, rest)
      | [] => ([], [c])
    else ([], c :: cs)

/-- The scanner's `NUMBER_RE` match at the current position; returns the
matched lexeme. -/
def parseNumber (cs : List Char) : Option (String × List Char) :=
  let sr : List Char × List Char :=
    match cs with
    | '-' :: rest => (['-'], rest)
    | _ => ([], cs)
  match parseIntPart sr.2 with
  | none => none
  | some (ip, cs2) =>
    let (fp, cs3) := parseFracPart cs2
    let (ep, cs4) := parseExpPart cs3
    some (String.mk (sr.1 ++ ip ++ fp ++ ep), cs4)

/-- Drops `lit` from the head of `cs` when it is literally there. -/
def stripLit : List Char → List Char → Option (List Char)
  | [], cs => some cs
  | _ :: _, [] => none
  | l :: ls, c :: cs => if c = l then stripLit ls cs else none

mutual

/-- One value, per the Python scanner's dispatch order: string, object,
array, `null`/`true`/`false`, number, then `NaN`/`Infinity`/`-Infinity`
(which `json.loads` accepts by default). -/
def parseValue : Nat → List Char → Option (Json × List Char)
  | 0, _ => none
  | _ + 1, [] => none
  | fuel + 1, c :: cs =>
    if c = '"' then
      match parseStringChars (fuel + 1) cs with
      | some (chars, rest) => some (Json.str (String.mk chars), rest)
      | none => none
    else if c = '\x7b' then parseObjectBody fuel cs
    else if c = '[' then parseArrayBody fuel cs
    else
      match stripLit ['n', 'u', 'l', 'l'] (c :: cs) with
      | some rest => some (Json.null, rest)
      | none =>
      match stripLit ['t', 'r', 'u', 'e'] (c :: cs) with
      | some rest => some (Json.bool true, rest)
      | none =>
      match stripLit ['f', 'a', 'l', 's', 'e'] (c :: cs) with
      | some rest => some (Json.bool false, rest)
      | none =>
      match parseNumber (c :: cs) with
      | some (lex, rest) => some (Json.num lex, rest)
      | none =>
      match stripLit ['N', 'a', 'N'] (c :: cs) with
      | some rest => some (Json.num "NaN", rest)
      | none =>
      match stripLit ['I', 'n', 'f', 'i', 'n', 'i', 't', 'y'] (c :: cs) with
      | some rest => some (Json.num "Infinity", rest)
      | none =>
      match stripLit ['-', 'I', 'n', 'f', 'i', 'n', 'i', 't', 'y'] (c :: cs) with
      | some rest => some (Json.num "-Infinity", rest)
      | none => none

/-- Object body after the opening brace. -/
def parseObjectBody : Nat → List Char → Option (Json × List Char)
  | 0, _ => none
  | fuel + 1, cs0 =>
    match skipWs cs0 with
    | '\x7d' :: rest => some (Json.obj [], rest)
    | cs => parsePairs fuel cs []

/-- Key/value pairs of an object; duplicate keys resolve like Python's
`dict`, last occurrence winning. -/
def parsePairs : Nat → List Char → List (String × Json) →
    Option (Json × List Char)
  | 0, _, _ => none
  | fuel + 1, cs, acc =>
    match cs with
    | '"' :: cs1 =>
      match parseStringChars (fuel + 1) cs1 with
      | none => none
      | some (kchars, cs2) =>
        match skipWs cs2 with
        | ':' :: cs3 =>
          match parseValue fuel (skipWs cs3) with
          | none => none
          | some (v, cs4) =>
            let acc1 := dictInsert acc (String.mk kchars) v
            match skipWs cs4 with
            | ',' :: cs5 => parsePairs fuel (skipWs cs5) acc1
            | '\x7d' :: cs5 => some (Json.obj acc1, cs5)
            | _ => none
        | _ => none
    | _ => none

/-- Array body after the opening bracket. -/
def parseArrayBody : Nat → List Char → Option (Json × List Char)
  | 0, _ => none
  | fuel + 1, cs0 =>
    match skipWs cs0 with
    | ']' :: rest => some (Json.arr [], rest)
    | cs => parseElems fuel cs []

/-- Elements of an array. -/
def parseElems : Nat → List Char → List Json → Option (Json × List Char)
  | 0, _, _ => none
  | fuel + 1, cs, acc =>
    match parseValue fuel cs with
    | none => none
    | some (v, cs1) =>
      match skipWs cs1 with
      | ',' :: cs2 => parseElems fuel (skipWs cs2) (acc ++ [v])
      | ']' :: cs2 => some (Json.arr (acc ++ [v]), cs2)
      | _ => none

end

/-- Python `json.loads` on a text: one value, surrounded by optional
whitespace, nothing else (`Extra data` otherwise); `none` is the raised
`json.JSONDecodeError`. -/
def parseJson (s : String) : Option Json :=
  match parseValue (2 * s.length + 4) (skipWs s.data) with
  | some (v, rest) => if (skipWs rest).isEmpty then some v else none
  | none => none

/-! ## Canonical cache-key payload and `hash_bytes` -/

/-- Lowercase hex digit of a value below 16, as `"%x"` formats it. -/
def hexDigitChar (n : Nat) : Char :=
  if n < 10 then Char.ofNat (48 + n) else Char.ofNat (87 + n)

/-- Four lowercase hex digits, as `"%04x"` formats a code unit. -/
def hex4 (n : Nat) : String :=
  String.mk [hexDigitChar (n / 4096 % 16), hexDigitChar (n / 256 % 16),
    hexDigitChar (n / 16 % 16), hexDigitChar (n % 16)]

/-- A `\uXXXX` escape. -/
def escU (n : Nat) : String := "\\u" ++ hex4 n

/-- `json.dumps` escaping of one character with the default
`ensure_ascii=True`: printable ASCII other than quote and backslash is kept,
everything else becomes a named escape or `\uXXXX` (with a surrogate pair
above 0xFFFF). -/
def pyJsonEscapeChar (c : Char) : String :=
  if c = '"' then "\\\""
  else if c = '\\' then "\\\\"
  else if c = '\n' then "\\n"
  else if c = '\r' then "\\r"
  else if c = '\t' then "\\t"
  else if c = Char.ofNat 8 then "\\b"
  else if c = Char.ofNat 12 then "\\f"
  else if 32 ≤ c.toNat ∧ c.toNat ≤ 126 then String.mk [c]
  else if c.toNat < 65536 then escU c.toNat
  else escU (55296 + (c.toNat - 65536) / 1024) ++ escU (56320 + (c.toNat - 65536) % 1024)

/-- `json.dumps` of a Python string. -/
def pyJsonStr (s : String) : String :=
  "\"" ++ String.join (s.data.map pyJsonEscapeChar) ++ "\""

/-- `json.dumps(f.model_dump(), sort_keys=True)` for one field definition:
`{"name": ..., "type": ...}` (the keys are already in sorted order, which is
also the `model_dump` order used by the plain dump at `field_schema_json`). -/
def fieldPayload (f : FieldDef) : String :=
  "\x7b\"name\": " ++ pyJsonStr f.name ++ ", \"type\": " ++ pyJsonStr f.type ++ "\x7d"

/-- `json.dumps([f.model_dump() for f in fields])` with the default
separators. -/
def fieldsPayload (fields : List FieldDef) : String :=
  "[" ++ String.intercalate ", " (fields.map fieldPayload) ++ "]"

/-- The `image_hash` component of the canonical payload: `null` for absence,
a JSON string for a present hash — syntactically distinct encodings. -/
def imagePayload : Option String → String
  | none => "null"
  | some h => pyJsonStr h

/-- `json.dumps(key_payload, sort_keys=True)` from `get_or_create_cache`:
the keys `fields < image_hash < prompt` appear in sorted order. -/
def cacheKeyPayload (prompt : String) (fields : List FieldDef)
    (imageHash : Option String) : String :=
  ("\x7b\"fields\": " ++ fieldsPayload fields ++ ", \"image_hash\": ") ++
    (imagePayload imageHash ++ (", \"prompt\": " ++ pyJsonStr prompt ++ "\x7d"))

/-- UTF-8 bytes of a payload string.  Every `cacheKeyPayload` output is pure
ASCII (`ensure_ascii=True` escaping), where UTF-8 is the identity on code
points. -/
def strBytes (s : String) : List Nat := s.data.map Char.toNat

/-- `storage.hash_bytes`: `hashlib.sha256(data).hexdigest()`.  SHA-256 is
modelled as the idealized collision-free digest printing each input byte in
hex — no claim depends on digest values beyond determinism (which any pure
function gives) and on distinct inputs keeping distinct digests (which the
code assumes of SHA-256); the distinctness arguments in this file are made
at the pre-hash canonical representation, not through this function. -/
def hash_bytes (data : List Nat) : String :=
  String.mk (data.foldr (fun b acc => hexDigitChar (b % 256 / 16) :: hexDigitChar (b % 16) :: acc) [])

/-- The cache fingerprint computed by `get_or_create_cache`:
`hash_bytes(json.dumps(key_payload, sort_keys=True).encode("utf-8"))`. -/
def cache_key_of (prompt : String) (fields : List FieldDef)
    (imageHash : Option String) : String :=
  hash_bytes (strBytes (cacheKeyPayload prompt fields imageHash))

/-! ## Database state -/

/-- HTTP-visible failure: an `HTTPException` or an uncaught exception
(which FastAPI surfaces as status 500). -/
structure HErr where
  status : Nat
  detail : String
deriving DecidableEq, Repr

/-- A row of the `images` table (`models.Image`).  `id` is the `uuid4`
primary key, modelled as a draw from the fresh-identifier supply. -/
structure ImageRow where
  id : Nat
  user_id : Nat
  object_key : String
  mime_type : Option String
  content_hash : String
deriving DecidableEq, Repr

/-- A row of the `query_cache` table (`models.QueryCache`).  `response`
models the `response_json` text column through the `json.dumps`/`json.loads`
round trip: `none` is the unset `""` placeholder, `some v` is `json.dumps`
of the value `v` (never the empty string). -/
structure CacheRow where
  cache_key : String
  prompt : String
  field_schema_json : String
  image_hash : Option String
  response : Option Json

/-- The stores the core reads and writes: the two relational tables, the
MinIO bucket (`object_key ↦ bytes`), and the fresh-identifier supply
standing for `uuid.uuid4()`. -/
structure DB where
  images : List ImageRow
  cache : List CacheRow
  blobs : List (String × List Nat)
  nextId : Nat

/-! ## Image upload (`upload_image` route + `storage.upload_image_bytes`) -/

/-- Response of the upload route (`schemas.ImageUploadResponse`). -/
structure UploadResp where
  image_id : Nat
  object_key : String
  mime_type : Option String
deriving DecidableEq, Repr

/-- The `IntegrityError` raised when the `uq_user_hash` unique constraint on
`(user_id, content_hash)` rejects an insert; uncaught, hence status 500. -/
def uqUserHashError : HErr := ⟨500, "IntegrityError: uq_user_hash"⟩

/-- The `IntegrityError` raised when the unique constraint on
`images.object_key` rejects an insert; uncaught, hence status 500. -/
def uqObjectKeyError : HErr := ⟨500, "IntegrityError: images_object_key_key"⟩

/-- `db.add(image); db.commit()` for a new image row: the commit enforces
the `uq_user_hash` constraint over `(user_id, content_hash)` and the unique
constraint on `object_key`, raising `IntegrityError` (nothing in
`routes_llm.py` catches it) on violation. -/
def insertImageRow (db : DB) (row : ImageRow) : Except HErr DB :=
  if db.images.any (fun i => i.user_id == row.user_id && i.content_hash == row.content_hash) then
    .error uqUserHashError
  else if db.images.any (fun i => i.object_key == row.object_key) then
    .error uqObjectKeyError
  else .ok { db with images := db.images ++ [row] }

/-- `storage.upload_image_bytes`: allocates the fresh object key
`images/{uuid4()}`, writes the blob, returns `(object_key, content_hash)`.
(`ensure_bucket_exists` is an idempotent no-op on the modelled state.) -/
def upload_image_bytes (db : DB) (data : List Nat) (contentType : Option String) :
    (String × String) × DB :=
  let content_hash := hash_bytes data
  let object_key := "images/" ++ toString db.nextId
  ((object_key, content_hash),
    { db with blobs := db.blobs ++ [(object_key, data)], nextId := db.nextId + 1 })

/-- The post-dedup-miss phase of the upload route (`routes_llm.py` lines
42-52): blob write, then row insert with a fresh `uuid4` id. -/
def uploadImageMiss (db : DB) (user : Nat) (data : List Nat)
    (contentType : Option String) : Except HErr (UploadResp × DB) :=
  let kd := upload_image_bytes db data contentType
  let db1 := kd.2
  let row : ImageRow :=
    { id := db1.nextId, user_id := user, object_key := kd.1.1,
      mime_type := contentType, content_hash := hash_bytes data }
  match insertImageRow { db1 with nextId := db1.nextId + 1 } row with
  | .error e => .error e
  | .ok db2 =>
    .ok ({ image_id := row.id, object_key := row.object_key,
           mime_type := row.mime_type }, db2)

/-- The `upload_image` route: reject empty payloads, dedup per
`(user, content_hash)`, otherwise write blob and insert row. -/
def upload_image (db : DB) (user : Nat) (data : List Nat)
    (contentType : Option String) : Except HErr (UploadResp × DB) :=
  if data.isEmpty then .error ⟨400, "Empty file upload"⟩
  else
    let content_hash := hash_bytes data
    match db.images.find? (fun i => i.user_id == user && i.content_hash == content_hash) with
    | some existing =>
      .ok ({ image_id := existing.id, object_key := existing.object_key,
             mime_type := existing.mime_type }, db)
    | none => uploadImageMiss db user data contentType

/-! ## Structured query (`structured_query` route) -/

/-- The body of a `/structured-query` request
(`schemas.StructuredQueryRequest`). -/
structure SQRequest where
  prompt : String
  fields : List FieldDef
  image_id : Option Nat

/-- `completion.choices[0].message.content` as the route inspects it: a
plain string or the defensive list-of-parts case (parts embedded as the
JSON-like values the SDK would hold; the final `str(...)` fallback of the
route is unreachable for these two shapes). -/
inductive MsgContent where
  | str (s : String)
  | parts (ps : List Json)

/-- The opaque external-model response: the contents of
`completion.choices` (each entry being that choice's `message.content`,
`none` for a null content). -/
structure ModelCompletion where
  choices : List (Option MsgContent)

/-- The 404 raised for a missing or foreign image — one and the same
exception for both cases. -/
def imageNotFound : HErr := ⟨404, "Image not found"⟩

/-- `storage.get_image_bytes`: read the blob, or raise `RuntimeError`
(surfaced as 500) when the key is missing in the store. -/
def get_image_bytes (db : DB) (key : String) : Except HErr (List Nat) :=
  match db.blobs.find? (fun b => b.1 == key) with
  | some b => .ok b.2
  | none => .error ⟨500, "Error fetching image from storage"⟩

/-- Lines 119-126 of `routes_llm.py`: resolve `payload.image_id` to the
image's bytes and content hash; `db.get(models.Image, image_id)` is the
primary-key lookup, and a missing row and a row of another owner raise the
identical 404. -/
def resolveImage (db : DB) (user : Nat) (imageId : Option Nat) :
    Except HErr (Option (List Nat) × Option String) :=
  match imageId with
  | none => .ok (none, none)
  | some iid =>
    match db.images.find? (fun i => i.id == iid) with
    | none => .error imageNotFound
    | some image =>
      if image.user_id == user then
        match get_image_bytes db image.object_key with
        | .error e => .error e
        | .ok bs => .ok (some bs, some image.content_hash)
      else .error imageNotFound

/-- `get_or_create_cache`: compute the fingerprint, look the row up by
`cache_key`.  A found row is returned with `json.loads(row.response_json)`
— which raises `JSONDecodeError` on the empty-string placeholder, and
yields Python `None` (so "no cached result") exactly for a stored `"null"`.
A miss returns the transient, not-yet-inserted row with the empty
placeholder.  The `Bool` records whether the returned row is persistent. -/
def get_or_create_cache (db : DB) (prompt : String) (fields : List FieldDef)
    (imageHash : Option String) : Except HErr (Option Json × CacheRow × Bool) :=
  let key := cache_key_of prompt fields imageHash
  match db.cache.find? (fun r => r.cache_key == key) with
  | some row =>
    match row.response with
    | none => .error ⟨500, "JSONDecodeError"⟩
    | some v =>
      match v with
      | Json.null => .ok (none, row, true)
      | _ => .ok (some v, row, true)
  | none =>
    .ok (none, { cache_key := key, prompt := prompt,
                 field_schema_json := fieldsPayload fields,
                 image_hash := imageHash, response := none }, false)

/-- Python truthiness of `raw_message_content` in
`if not raw_message_content`. -/
def contentFalsy : MsgContent → Bool
  | .str s => s.isEmpty
  | .parts ps => ps.isEmpty

/-- Lines 173-184: take the first choice's message content, raising 500 for
no choices and for a falsy (`None`/empty) content. -/
def completionText (c : ModelCompletion) : Except HErr MsgContent :=
  match c.choices with
  | [] => .error ⟨500, "No response from language model"⟩
  | choice :: _ =>
    match choice with
    | none => .error ⟨500, "Empty response from language model"⟩
    | some content =>
      if contentFalsy content then .error ⟨500, "Empty response from language model"⟩
      else .ok content

/-- `isinstance(part, dict) and part.get("type") == "text"`. -/
def partIsTextDict : Json → Bool
  | .obj kvs =>
    match alookup kvs "type" with
    | some (Json.str t) => t == "text"
    | _ => false
  | _ => false

/-- `part.get("text", "")` for a selected part.  (A non-string `"text"`
value would make the later `"".join` raise; unreachable for SDK content.) -/
def partTextValue : Json → String
  | .obj kvs =>
    match alookup kvs "text" with
    | some (Json.str s) => s
    | _ => ""
  | _ => ""

/-- Lines 187-198: normalise the message content to `raw_content_text`. -/
def normalizeContent : MsgContent → String
  | .str s => s
  | .parts ps => String.join ((ps.filter partIsTextDict).map partTextValue)

/-- The value `raw_message_content` denotes inside the fallback object
`{"raw": raw_message_content}`. -/
def contentToJson : MsgContent → Json
  | .str s => Json.str s
  | .parts ps => Json.arr ps

/-- Constructing `StructuredQueryResponse(result=..., cached=...)`: the
response model declares `result: Dict[str, Any]`, so a non-dict result value
raises a validation error, surfaced as 500. -/
def mkResp (v : Json) (cached : Bool) : Except HErr (Json × Bool) :=
  match v with
  | Json.obj _ => .ok (v, cached)
  | _ => .error ⟨500, "ResponseValidationError"⟩

/-- The `IntegrityError` raised when the unique constraint on
`query_cache.cache_key` rejects an insert; uncaught, hence status 500. -/
def uqCacheKeyError : HErr := ⟨500, "IntegrityError: query_cache_cache_key_key"⟩

/-- `db.add(cache_row); db.commit()` for a transient (new) cache row: the
commit enforces the unique constraint on `cache_key`, raising
`IntegrityError` (uncaught in `routes_llm.py`) when another row with the
same fingerprint already landed. -/
def insertCacheRow (db : DB) (row : CacheRow) : Except HErr DB :=
  if db.cache.any (fun r => r.cache_key == row.cache_key) then .error uqCacheKeyError
  else .ok { db with cache := db.cache ++ [row] }

/-- Lines 205-208: `cache_row.response_json = json.dumps(result_json);
db.add(cache_row); db.commit()`.  For the persistent row of a stored-`null`
hit this is an in-place update; for the transient miss row it is an insert
subject to the `cache_key` unique constraint. -/
def completeCache (db : DB) (row : CacheRow) (isPersistent : Bool) (v : Json) :
    Except HErr DB :=
  let row1 : CacheRow := { row with response := some v }
  if isPersistent then
    .ok { db with
          cache := db.cache.map (fun r => if r.cache_key == row.cache_key then row1 else r) }
  else insertCacheRow db row1

/-- Everything a `/structured-query` call produces: the HTTP outcome, the
database state it leaves behind, and whether the fingerprint/cache step, the
schema build, and the external model call were reached. -/
structure SQOutcome where
  result : Except HErr (Json × Bool)
  db : DB
  fingerprinted : Bool
  builtSchema : Bool
  calledModel : Bool

/-- The `structured_query` route.  `completion` is the value the external
model would return on this call; `calledModel` records whether the code path
consulting it was reached. -/
def structured_query (db : DB) (user : Nat) (payload : SQRequest)
    (completion : ModelCompletion) : SQOutcome :=
  match resolveImage db user payload.image_id with
  | .error e => ⟨.error e, db, false, false, false⟩
  | .ok res =>
    match get_or_create_cache db payload.prompt payload.fields res.2 with
    | .error e => ⟨.error e, db, true, false, false⟩
    | .ok (some v, _, _) => ⟨mkResp v true, db, true, false, false⟩
    | .ok (none, row, isPersistent) =>
      match build_json_schema payload.fields with
      | .error msg => ⟨.error ⟨500, "ValueError: " ++ msg⟩, db, true, true, false⟩
      | .ok _schema =>
        match completionText completion with
        | .error e => ⟨.error e, db, true, true, true⟩
        | .ok content =>
          let resultJson :=
            match parseJson (normalizeContent content) with
            | some j => j
            | none => Json.obj [("raw", contentToJson content)]
          match completeCache db row isPersistent resultJson with
          | .error e => ⟨.error e, db, true, true, true⟩
          | .ok db1 => ⟨mkResp resultJson false, db1, true, true, true⟩

/-! ## Concrete example states used by the witnesses -/

/-- The spec's own schema-fidelity example list. -/
def fdTitlePrice : List FieldDef := [⟨"title", "string"⟩, ⟨"price", "number"⟩]

/-- The spec's unsupported-type example list. -/
def fdBool : List FieldDef := [⟨"x", "boolean"⟩]

/-- A list with a duplicated field name. -/
def fdDup : List FieldDef := [⟨"a", "string"⟩, ⟨"a", "number"⟩]

/-- An empty store. -/
def dbEmpty : DB := ⟨[], [], [], 0⟩

/-- A declared content type. -/
def ctPng : Option String := some "image/png"

/-- The store after uploading the bytes `[1, 2]` for owner `0` into the
empty store. -/
def dbA : DB := ⟨[⟨1, 0, "images/0", ctPng, "0102"⟩], [], [("images/0", [1, 2])], 2⟩

/-- The response of that first upload. -/
def respA : UploadResp := ⟨1, "images/0", ctPng⟩

/-- The store after owner `1` also uploads `[1, 2]` into `dbA`. -/
def dbB : DB := ⟨[⟨1, 0, "images/0", ctPng, "0102"⟩, ⟨3, 1, "images/2", ctPng, "0102"⟩], [],
  [("images/0", [1, 2]), ("images/2", [1, 2])], 4⟩

/-- The response of that second upload. -/
def respB : UploadResp := ⟨3, "images/2", ctPng⟩

/-- A completed cache row for fingerprint `"k"`. -/
def rowDone : CacheRow := ⟨"k", "p", "[]", none, some (Json.obj [])⟩

/-- The in-memory reservation row another request holds for the same
fingerprint `"k"`. -/
def rowRes : CacheRow := ⟨"k", "p", "[]", none, none⟩

/-- A store in which a completion for fingerprint `"k"` has already
landed. -/
def dbC : DB := ⟨[], [rowDone], [], 0⟩

/-- The C9 invariant: every durably persisted cache row has a non-empty
`response_json` (`isSome` in the value-level model, where `none` stands for
the empty string). -/
def cacheWellFormed (db : DB) : Prop := ∀ r ∈ db.cache, r.response.isSome = true

/-- An image row owned by principal 5, used by the C7 witness. -/
def imgForeign : ImageRow := ⟨7, 5, "images/0", ctPng, "01"⟩

/-- A store holding only `imgForeign`. -/
def dbD : DB := ⟨[imgForeign], [], [("images/0", [1])], 8⟩

/-- A small structured-query request. -/
def pay0 : SQRequest := ⟨"p", [⟨"a", "string"⟩], none⟩

/-- A request with no fields. -/
def payNoFields : SQRequest := ⟨"p", [], none⟩

/-- A completion whose content is not valid JSON. -/
def compHello : ModelCompletion := ⟨[some (.str "hello")]⟩

/-- A completion whose content is a valid JSON object. -/
def compJson : ModelCompletion := ⟨[some (.str "\x7b\"a\": \"b\"\x7d")]⟩

/-- A different completion, showing the second call never consults it. -/
def compOther : ModelCompletion := ⟨[some (.str "ignored")]⟩

/-- A completion with no choices. -/
def compEmpty : ModelCompletion := ⟨[]⟩

/-- The reservation row `get_or_create_cache` builds for `pay0` on a miss. -/
def rowP : CacheRow :=
  ⟨cache_key_of "p" [⟨"a", "string"⟩] none, "p", fieldsPayload [⟨"a", "string"⟩], none, none⟩

/-- The schema built for `pay0`. -/
def schP : JsonSchema := ⟨"object", [("a", "string")], ["a"], false⟩

/-- A completed row for the fingerprint of `payNoFields`. -/
def rowHit : CacheRow := ⟨cache_key_of "p" [] none, "p", "[]", none, some (Json.obj [])⟩

/-- A store holding only the completed row `rowHit`. -/
def dbE : DB := ⟨[], [rowHit], [], 0⟩

/-! ### Dictionary lemmas -/

theorem alookup_nil {α : Type} (n : String) : alookup ([] : List (String × α)) n = none := rfl

theorem find?_mapUpd_self {α : Type} (k : String) (v : α) :
    ∀ d : List (String × α), d.any (fun p => p.1 == k) = true →
      (d.map (fun p => if p.1 == k then (k, v) else p)).find? (fun p => p.1 == k)
        = some (k, v) := by
  intro d
  induction d with
  | nil => intro h; simp at h
  | cons p d ih =>
    intro h
    by_cases hp : p.1 = k
    · rw [List.map_cons, if_pos (by simpa using hp),
        List.find?_cons_of_pos _ (by simp)]
    · have hp' : (p.1 == k) = false := beq_false_of_ne hp
      simp only [List.any_cons, hp', Bool.false_or] at h
      rw [List.map_cons, if_neg (by simp [hp']),
        List.find?_cons_of_neg _ (by simp [hp']), ih h]

theorem find?_mapUpd_ne {α : Type} (k n : String) (v : α) (hnk : n ≠ k) :
    ∀ d : List (String × α),
      (d.map (fun p => if p.1 == k then (k, v) else p)).find? (fun p => p.1 == n)
        = d.find? (fun p => p.1 == n) := by
  intro d
  induction d with
  | nil => simp
  | cons p d ih =>
    by_cases hp : p.1 = k
    · have hpn : ¬ (p.1 = n) := by rw [hp]; exact fun h => hnk h.symm
      rw [List.map_cons, if_pos (by simpa using hp),
        List.find?_cons_of_neg _ (by simp; exact fun h => hnk h.symm),
        List.find?_cons_of_neg _ (by simpa using hpn), ih]
    · rw [List.map_cons, if_neg (by simpa using hp)]
      by_cases hpn : p.1 = n
      · rw [List.find?_cons_of_pos _ (by simpa using hpn),
          List.find?_cons_of_pos _ (by simpa using hpn)]
      · rw [List.find?_cons_of_neg _ (by simpa using hpn),
          List.find?_cons_of_neg _ (by simpa using hpn), ih]

theorem find?_eq_none_of_any_eq_false {α : Type} (p : α → Bool) :
    ∀ l : List α, l.any p = false → l.find? p = none := by
  intro l
  induction l with
  | nil => simp
  | cons a l ih =>
    intro h
    simp only [List.any_cons, Bool.or_eq_false_iff] at h
    simp [List.find?, h.1, ih h.2]

theorem any_eq_false_of_find?_eq_none {α : Type} (p : α → Bool) :
    ∀ l : List α, l.find? p = none → l.any p = false := by
  intro l
  induction l with
  | nil => simp
  | cons a l ih =>
    intro h
    cases hc : p a with
    | true => simp [List.find?, hc] at h
    | false =>
      simp only [List.find?, hc, cond_false] at h
      simp [hc, ih h]

theorem alookup_dictInsert {α : Type} (d : List (String × α)) (k : String) (v : α)
    (n : String) :
    alookup (dictInsert d k v) n = if n = k then some v else alookup d n := by
  by_cases hany : d.any (fun p => p.1 == k) = true
  · have hd : dictInsert d k v = d.map (fun p => if p.1 == k then (k, v) else p) := by
      unfold dictInsert; rw [if_pos hany]
    rw [hd]
    by_cases hnk : n = k
    · subst hnk
      unfold alookup
      rw [find?_mapUpd_self n v d hany, if_pos rfl]
      rfl
    · unfold alookup
      rw [find?_mapUpd_ne k n v hnk d, if_neg hnk]
  · have hany' : d.any (fun p => p.1 == k) = false := Bool.eq_false_iff.mpr hany
    have hd : dictInsert d k v = d ++ [(k, v)] := by
      unfold dictInsert; rw [if_neg hany]
    rw [hd]
    unfold alookup
    rw [List.find?_append]
    by_cases hnk : n = k
    · subst hnk
      rw [find?_eq_none_of_any_eq_false _ d hany', if_pos rfl, Option.none_or,
        List.find?_cons_of_pos _ (by simp)]
      rfl
    · have h1 : List.find? (fun p => p.1 == n) ((k, v) :: []) =
          List.find? (fun p => p.1 == n) [] :=
        List.find?_cons_of_neg [] (by simp only [beq_iff_eq]; exact fun h => hnk h.symm)
      rw [if_neg hnk, h1, List.find?_nil, Option.or_none]

theorem keys_dictInsert_of_any {α : Type} (d : List (String × α)) (k : String) (v : α)
    (h : d.any (fun p => p.1 == k) = true) :
    (dictInsert d k v).map Prod.fst = d.map Prod.fst := by
  unfold dictInsert
  rw [if_pos h, List.map_map]
  apply List.map_congr_left
  intro p _
  by_cases hp : p.1 = k
  · simp [hp]
  · simp [hp]

theorem keys_dictInsert_of_not_any {α : Type} (d : List (String × α)) (k : String) (v : α)
    (h : d.any (fun p => p.1 == k) = false) :
    (dictInsert d k v).map Prod.fst = d.map Prod.fst ++ [k] := by
  unfold dictInsert
  rw [if_neg (by simp [h])]
  simp

theorem not_mem_keys_of_any_eq_false {α : Type} (d : List (String × α)) (k : String)
    (h : d.any (fun p => p.1 == k) = false) : k ∉ d.map Prod.fst := by
  intro hmem
  obtain ⟨p, hp, hpk⟩ := List.mem_map.mp hmem
  have := List.any_eq_false.mp h p hp
  exact this (by simp [hpk])

theorem mem_keys_of_any_eq_true {α : Type} (d : List (String × α)) (k : String)
    (h : d.any (fun p => p.1 == k) = true) : k ∈ d.map Prod.fst := by
  obtain ⟨p, hp, hpk⟩ := List.any_eq_true.mp h
  exact List.mem_map.mpr ⟨p, hp, by simpa using hpk.symm⟩

theorem nodup_keys_dictInsert {α : Type} (d : List (String × α)) (k : String) (v : α)
    (h : (d.map Prod.fst).Nodup) : ((dictInsert d k v).map Prod.fst).Nodup := by
  cases hany : d.any (fun p => p.1 == k) with
  | true => rw [keys_dictInsert_of_any d k v hany]; exact h
  | false =>
    rw [keys_dictInsert_of_not_any d k v hany]
    refine List.Nodup.append h (List.nodup_singleton k) ?_
    intro a ha hb
    have : a = k := by simpa using hb
    subst this
    exact not_mem_keys_of_any_eq_false d a hany ha

theorem mem_keys_dictInsert {α : Type} (d : List (String × α)) (k : String) (v : α)
    (n : String) :
    n ∈ (dictInsert d k v).map Prod.fst ↔ n = k ∨ n ∈ d.map Prod.fst := by
  cases hany : d.any (fun p => p.1 == k) with
  | true =>
    rw [keys_dictInsert_of_any d k v hany]
    constructor
    · exact Or.inr
    · rintro (rfl | h)
      · exact mem_keys_of_any_eq_true d n hany
      · exact h
  | false =>
    rw [keys_dictInsert_of_not_any d k v hany]
    simp [or_comm]

/-! ### Characterisation of the schema-builder loop -/

theorem schemaLoop_cons_string (f : FieldDef) (fs : List FieldDef)
    (props : List (String × String)) (req : List String) (h : f.type = "string") :
    schemaLoop (f :: fs) props req =
      schemaLoop fs (dictInsert props f.name "string") (req ++ [f.name]) := by
  simp [schemaLoop, h]

theorem schemaLoop_cons_number (f : FieldDef) (fs : List FieldDef)
    (props : List (String × String)) (req : List String) (h : f.type = "number") :
    schemaLoop (f :: fs) props req =
      schemaLoop fs (dictInsert props f.name "number") (req ++ [f.name]) := by
  simp [schemaLoop, h]

theorem schemaLoop_cons_bad (f : FieldDef) (fs : List FieldDef)
    (props : List (String × String)) (req : List String)
    (h1 : f.type ≠ "string") (h2 : f.type ≠ "number") :
    schemaLoop (f :: fs) props req = .error ("Unsupported field type: " ++ f.type) := by
  simp [schemaLoop, h1, h2]

theorem schemaLoop_ok_of_supported :
    ∀ (fields : List FieldDef) (props : List (String × String)) (req : List String),
      (∀ f ∈ fields, f.type = "string" ∨ f.type = "number") →
      schemaLoop fields props req =
        .ok { type := "object",
              properties := fields.foldl propStep props,
              required := req ++ fields.map FieldDef.name,
              additionalProperties := false } := by
  intro fields
  induction fields with
  | nil => intro props req _; simp [schemaLoop]
  | cons f fs ih =>
    intro props req hsupp
    have hf := hsupp f (List.mem_cons_self f fs)
    have hfs : ∀ g ∈ fs, g.type = "string" ∨ g.type = "number" :=
      fun g hg => hsupp g (List.mem_cons_of_mem f hg)
    rcases hf with hf | hf
    · rw [schemaLoop_cons_string f fs props req hf, ih _ _ hfs]
      have hp : dictInsert props f.name "string" = propStep props f := by
        rw [propStep, hf]
      rw [hp]
      simp [List.append_assoc]
    · rw [schemaLoop_cons_number f fs props req hf, ih _ _ hfs]
      have hp : dictInsert props f.name "number" = propStep props f := by
        rw [propStep, hf]
      rw [hp]
      simp [List.append_assoc]

theorem schemaLoop_error_of_unsupported :
    ∀ (fields : List FieldDef) (props : List (String × String)) (req : List String),
      (∃ f ∈ fields, f.type ≠ "string" ∧ f.type ≠ "number") →
      ∃ e, schemaLoop fields props req = .error e := by
  intro fields
  induction fields with
  | nil => rintro props req ⟨f, hf, -⟩; exact absurd hf (List.not_mem_nil f)
  | cons f fs ih =>
    rintro props req ⟨g, hg, hg1, hg2⟩
    by_cases hfs : f.type = "string"
    · rcases List.mem_cons.mp hg with rfl | hg'
      · exact absurd hfs hg1
      · rw [schemaLoop_cons_string f fs props req hfs]
        exact ih _ _ ⟨g, hg', hg1, hg2⟩
    · by_cases hfn : f.type = "number"
      · rcases List.mem_cons.mp hg with rfl | hg'
        · exact absurd hfn hg2
        · rw [schemaLoop_cons_number f fs props req hfn]
          exact ih _ _ ⟨g, hg', hg1, hg2⟩
      · exact ⟨"Unsupported field type: " ++ f.type,
          schemaLoop_cons_bad f fs props req hfs hfn⟩

theorem alookup_foldl_propStep (n : String) :
    ∀ (fields : List FieldDef) (acc : List (String × String)),
      alookup (fields.foldl propStep acc) n =
        match lastType fields n with
        | some t => some t
        | none => alookup acc n := by
  intro fields
  induction fields with
  | nil => intro acc; simp [lastType]
  | cons f fs ih =>
    intro acc
    simp only [List.foldl_cons, ih (propStep acc f), lastType]
    cases hlt : lastType fs n with
    | some t => simp
    | none =>
      simp only [propStep, alookup_dictInsert]
      by_cases hfn : f.name = n
      · simp [hfn]
      · have h1 : (f.name == n) = false := beq_false_of_ne hfn
        have h2 : ¬ (n = f.name) := fun h => hfn h.symm
        simp [h1, h2]

theorem lastType_eq_some_imp (n t : String) :
    ∀ fields : List FieldDef, lastType fields n = some t →
      ∃ f ∈ fields, f.name = n ∧ f.type = t := by
  intro fields
  induction fields with
  | nil => simp [lastType]
  | cons f fs ih =>
    intro h
    cases hlt : lastType fs n with
    | some t' =>
      simp only [lastType, hlt] at h
      obtain ⟨g, hg, hgn, hgt⟩ := ih (by rw [hlt]; exact h)
      exact ⟨g, List.mem_cons_of_mem f hg, hgn, hgt⟩
    | none =>
      simp only [lastType, hlt] at h
      by_cases hfn : f.name = n
      · rw [if_pos (by simpa using hfn)] at h
        exact ⟨f, List.mem_cons_self f fs, hfn, Option.some.inj h⟩
      · rw [if_neg (by simpa using hfn)] at h
        exact absurd h (by simp)

theorem lastType_isSome_iff (n : String) :
    ∀ fields : List FieldDef,
      (lastType fields n).isSome = true ↔ n ∈ fields.map FieldDef.name := by
  intro fields
  induction fields with
  | nil => simp [lastType]
  | cons f fs ih =>
    cases hlt : lastType fs n with
    | some t =>
      have hn : n ∈ fs.map FieldDef.name := ih.mp (by rw [hlt]; rfl)
      simp only [lastType, hlt, List.map_cons, List.mem_cons]
      simp [hn]
    | none =>
      have hn : n ∉ fs.map FieldDef.name := fun hmem => by
        have := ih.mpr hmem; rw [hlt] at this; simp at this
      simp only [lastType, hlt, List.map_cons, List.mem_cons]
      by_cases hfn : f.name = n
      · simp [hfn]
      · simp [hfn, hn, show ¬ n = f.name from fun h => hfn h.symm]

theorem nodup_keys_foldl_propStep :
    ∀ (fields : List FieldDef) (acc : List (String × String)),
      (acc.map Prod.fst).Nodup → ((fields.foldl propStep acc).map Prod.fst).Nodup := by
  intro fields
  induction fields with
  | nil => intro acc h; simpa using h
  | cons f fs ih =>
    intro acc h
    simp only [List.foldl_cons]
    exact ih _ (nodup_keys_dictInsert _ _ _ h)

theorem mem_keys_foldl_propStep (n : String) :
    ∀ (fields : List FieldDef) (acc : List (String × String)),
      n ∈ (fields.foldl propStep acc).map Prod.fst ↔
        n ∈ fields.map FieldDef.name ∨ n ∈ acc.map Prod.fst := by
  intro fields
  induction fields with
  | nil => intro acc; simp
  | cons f fs ih =>
    intro acc
    rw [List.foldl_cons, ih (propStep acc f), propStep, mem_keys_dictInsert]
    simp only [List.map_cons, List.mem_cons]
    tauto

theorem alookup_build (fields : List FieldDef) (n : String) :
    alookup (fields.foldl propStep []) n = lastType fields n := by
  rw [alookup_foldl_propStep n fields []]
  cases lastType fields n <;> simp [alookup]

/-- C6: for every field list with types in \x7bstring, number\x7d the built
schema has exactly one property per distinct field name, each typed by a
field declaring that name (string fields getting the string type, number
fields the numeric type), its required set is exactly the set of input field
names, and additional properties are disallowed; the builder itself fails on
any field whose type is outside the supported set. -/
theorem c6_schema_fidelity (fields : List FieldDef) :
    ((∀ f ∈ fields, f.type = "string" ∨ f.type = "number") →
      ∃ s, build_json_schema fields = .ok s
        ∧ s.type = "object"
        ∧ s.additionalProperties = false
        ∧ (s.properties.map Prod.fst).Nodup
        ∧ (∀ n, (alookup s.properties n).isSome = true ↔ n ∈ fields.map FieldDef.name)
        ∧ (∀ n t, alookup s.properties n = some t →
            ∃ f ∈ fields, f.name = n ∧ f.type = t ∧ (t = "string" ∨ t = "number"))
        ∧ (∀ n, n ∈ s.required ↔ n ∈ fields.map FieldDef.name))
    ∧ ((∃ f ∈ fields, f.type ≠ "string" ∧ f.type ≠ "number") →
      ∃ e, build_json_schema fields = .error e) := by
  constructor
  · intro hsupp
    refine ⟨_, schemaLoop_ok_of_supported fields [] [] hsupp, rfl, rfl, ?_, ?_, ?_, ?_⟩
    · exact nodup_keys_foldl_propStep fields [] (by simp)
    · intro n
      rw [alookup_build]
      exact lastType_isSome_iff n fields
    · intro n t h
      rw [alookup_build] at h
      obtain ⟨f, hf, hfn, hft⟩ := lastType_eq_some_imp n t fields h
      exact ⟨f, hf, hfn, hft, hft ▸ hsupp f hf⟩
    · intro n
      simp
  · intro h
    exact schemaLoop_error_of_unsupported fields [] [] h

/-- Witness for C6 at the spec's own example plus the unsupported type. -/
theorem c6_schema_fidelity_witness :
    (∃ s, build_json_schema fdTitlePrice = .ok s
        ∧ s.type = "object"
        ∧ s.additionalProperties = false
        ∧ (s.properties.map Prod.fst).Nodup
        ∧ (∀ n, (alookup s.properties n).isSome = true ↔
            n ∈ fdTitlePrice.map FieldDef.name)
        ∧ (∀ n t, alookup s.properties n = some t →
            ∃ f ∈ fdTitlePrice, f.name = n ∧ f.type = t
              ∧ (t = "string" ∨ t = "number"))
        ∧ (∀ n, n ∈ s.required ↔ n ∈ fdTitlePrice.map FieldDef.name))
    ∧ (∃ e, build_json_schema fdBool = .error e) :=
  ⟨(c6_schema_fidelity fdTitlePrice).1 (by decide),
   (c6_schema_fidelity fdBool).2 ⟨⟨"x", "boolean"⟩, by decide, by decide, by decide⟩⟩

/-- C10: duplicate field names with supported types are not rejected: the
properties dict keeps exactly one entry per distinct name, valued by the
type of the last occurrence, while the required list keeps one entry per
occurrence (so duplicates are neither a validation error nor fully
deduplicated). -/
theorem c10_duplicate_names_last_wins (fields : List FieldDef)
    (hdup : ¬ (fields.map FieldDef.name).Nodup)
    (hsupp : ∀ f ∈ fields, f.type = "string" ∨ f.type = "number") :
    ∃ s, build_json_schema fields = .ok s
      ∧ (s.properties.map Prod.fst).Nodup
      ∧ (∀ n, n ∈ s.properties.map Prod.fst ↔ n ∈ fields.map FieldDef.name)
      ∧ (∀ n, alookup s.properties n = lastType fields n)
      ∧ s.required = fields.map FieldDef.name
      ∧ ∃ n, 2 ≤ s.required.count n := by
  refine ⟨_, schemaLoop_ok_of_supported fields [] [] hsupp, ?_, ?_, ?_, by simp, ?_⟩
  · exact nodup_keys_foldl_propStep fields [] (by simp)
  · intro n
    rw [mem_keys_foldl_propStep n fields []]
    simp
  · intro n
    exact alookup_build fields n
  · rw [List.nodup_iff_count_le_one] at hdup
    push_neg at hdup
    obtain ⟨n, hn⟩ := hdup
    exact ⟨n, by simpa using hn⟩

/-- Witness for C10 at a list with a duplicated name. -/
theorem c10_duplicate_names_last_wins_witness :
    ∃ s, build_json_schema fdDup = .ok s
      ∧ (s.properties.map Prod.fst).Nodup
      ∧ (∀ n, n ∈ s.properties.map Prod.fst ↔ n ∈ fdDup.map FieldDef.name)
      ∧ (∀ n, alookup s.properties n = lastType fdDup n)
      ∧ s.required = fdDup.map FieldDef.name
      ∧ ∃ n, 2 ≤ s.required.count n :=
  c10_duplicate_names_last_wins fdDup (by decide) (by decide)

/-! ### The canonical fingerprint payload (C1) -/

theorem pyJsonStr_data (s : String) :
    (pyJsonStr s).data =
      '"' :: ((String.join (s.data.map pyJsonEscapeChar)).data ++ "\"".data) := by
  rw [pyJsonStr, String.data_append, String.data_append,
    show ("\"" : String).data = ['"'] from rfl, List.append_assoc, List.singleton_append]

theorem cacheKeyPayload_none_ne_some (p : String) (fs : List FieldDef) (h : String) :
    cacheKeyPayload p fs none ≠ cacheKeyPayload p fs (some h) := by
  intro heq
  have hd := congrArg String.data heq
  simp only [cacheKeyPayload, String.data_append] at hd
  have h1 := List.append_cancel_left hd
  have h2 := List.append_cancel_right h1
  rw [show imagePayload none = "null" from rfl,
    show imagePayload (some h) = pyJsonStr h from rfl, pyJsonStr_data,
    show ("null" : String).data = 'n' :: ['u', 'l', 'l'] from rfl] at h2
  have h3 := congrArg (fun l => l.headD 'x') h2
  simp at h3

/-- C1: the cache fingerprint is a pure (hence deterministic) function of
the triple (prompt, field sequence, optional image hash), and the canonical
serialized representation it hashes encodes the absence of an image (the
JSON `null`) distinctly from the presence of any image hash (a JSON string):
for a fixed prompt and field list, the no-image payload differs from every
with-image payload. -/
theorem c1_fingerprint_deterministic_image_distinct :
    (∀ (p : String) (fs : List FieldDef) (ih : Option String),
      cache_key_of p fs ih = cache_key_of p fs ih)
    ∧ (∀ (p : String) (fs : List FieldDef) (h : String),
      (cacheKeyPayload p fs none == cacheKeyPayload p fs (some h)) = false) :=
  ⟨fun _ _ _ => rfl,
   fun p fs h => beq_eq_false_iff_ne.mpr (cacheKeyPayload_none_ne_some p fs h)⟩

/-! ### Image upload: dedup idempotence and the insert race (C4, C5) -/

theorem uploadImageMiss_ok_inversion (db : DB) (u : Nat) (d : List Nat)
    (ct : Option String) (r : UploadResp) (db1 : DB)
    (h : uploadImageMiss db u d ct = .ok (r, db1)) :
    db.images.any (fun i => i.user_id == u && i.content_hash == hash_bytes d) = false ∧
    db.images.any (fun i => i.object_key == "images/" ++ toString db.nextId) = false ∧
    r = ⟨db.nextId + 1, "images/" ++ toString db.nextId, ct⟩ ∧
    db1 = ⟨db.images ++ [⟨db.nextId + 1, u, "images/" ++ toString db.nextId, ct, hash_bytes d⟩],
           db.cache, db.blobs ++ [("images/" ++ toString db.nextId, d)], db.nextId + 2⟩ := by
  unfold uploadImageMiss at h
  simp only [upload_image_bytes, insertImageRow] at h
  by_cases h1 : db.images.any (fun i => i.user_id == u && i.content_hash == hash_bytes d) = true
  · rw [if_pos h1] at h
    exact absurd h (by simp)
  · rw [if_neg h1] at h
    by_cases h2 : db.images.any (fun i => i.object_key == "images/" ++ toString db.nextId) = true
    · rw [if_pos h2] at h
      exact absurd h (by simp)
    · rw [if_neg h2] at h
      simp only [Except.ok.injEq, Prod.mk.injEq] at h
      exact ⟨Bool.eq_false_iff.mpr h1, Bool.eq_false_iff.mpr h2, h.1.symm, h.2.symm⟩

theorem upload_image_ok_inversion (db : DB) (u : Nat) (d : List Nat)
    (ct : Option String) (r : UploadResp) (db1 : DB)
    (h : upload_image db u d ct = .ok (r, db1)) :
    d.isEmpty = false ∧
    ((∃ ex, db.images.find? (fun i => i.user_id == u && i.content_hash == hash_bytes d) = some ex
        ∧ r = ⟨ex.id, ex.object_key, ex.mime_type⟩ ∧ db1 = db)
     ∨ (db.images.find? (fun i => i.user_id == u && i.content_hash == hash_bytes d) = none
        ∧ uploadImageMiss db u d ct = .ok (r, db1))) := by
  unfold upload_image at h
  by_cases hemp : d.isEmpty = true
  · rw [if_pos hemp] at h; exact absurd h (by simp)
  · rw [if_neg hemp] at h
    refine ⟨Bool.eq_false_iff.mpr hemp, ?_⟩
    simp only [] at h
    cases hf : db.images.find? (fun i => i.user_id == u && i.content_hash == hash_bytes d) with
    | some ex =>
      rw [hf] at h
      simp only [Except.ok.injEq, Prod.mk.injEq] at h
      exact Or.inl ⟨ex, rfl, h.1.symm, h.2.symm⟩
    | none =>
      rw [hf] at h
      exact Or.inr ⟨rfl, h⟩

theorem not_mem_objkeys_of_any_eq_false (images : List ImageRow) (k : String)
    (h : images.any (fun i => i.object_key == k) = false) :
    k ∉ images.map ImageRow.object_key := by
  intro hmem
  obtain ⟨i, hi, hik⟩ := List.mem_map.mp hmem
  exact (List.any_eq_false.mp h i hi) (by simp [hik])

/-- C4: image upload is idempotent per (owner, content): a second upload of
the same bytes by the same owner returns the stored record's identity and
storage key and leaves the store (rows and blobs) entirely unchanged, while
uploads of the same bytes by two different owners produce distinct storage
keys. -/
theorem c4_upload_dedup (db : DB) (d : List Nat) :
    (∀ (u : Nat) (ct ct' : Option String) (r1 : UploadResp) (db1 : DB)
        (r2 : UploadResp) (db2 : DB),
      upload_image db u d ct = .ok (r1, db1) →
      upload_image db1 u d ct' = .ok (r2, db2) →
      r2.image_id = r1.image_id ∧ r2.object_key = r1.object_key ∧ db2 = db1)
    ∧ (∀ (u1 u2 : Nat) (ct ct' : Option String) (r1 : UploadResp) (db1 : DB)
        (r2 : UploadResp) (db2 : DB),
      (db.images.map ImageRow.object_key).Nodup → u1 ≠ u2 →
      upload_image db u1 d ct = .ok (r1, db1) →
      upload_image db1 u2 d ct' = .ok (r2, db2) →
      r1.object_key ≠ r2.object_key) := by
  constructor
  · intro u ct ct' r1 db1 r2 db2 h1 h2
    obtain ⟨hemp, hc1⟩ := upload_image_ok_inversion db u d ct r1 db1 h1
    obtain ⟨-, hc2⟩ := upload_image_ok_inversion db1 u d ct' r2 db2 h2
    rcases hc1 with ⟨ex, hf, hr1, hdb⟩ | ⟨hf, hm⟩
    · rw [hdb] at hc2
      rcases hc2 with ⟨ex2, hf2, hr2, hdb2⟩ | ⟨hf2, -⟩
      · rw [hf] at hf2
        obtain rfl : ex = ex2 := Option.some.inj hf2
        rw [hr1, hr2, hdb]
        exact ⟨rfl, rfl, hdb2⟩
      · rw [hf] at hf2
        exact absurd hf2 (by simp)
    · obtain ⟨ha1, hb1, hr1, hdb⟩ := uploadImageMiss_ok_inversion db u d ct r1 db1 hm
      rw [hdb] at hc2
      simp only [] at hc2
      have hrow : List.find? (fun i => i.user_id == u && i.content_hash == hash_bytes d)
          (db.images ++ [⟨db.nextId + 1, u, "images/" ++ toString db.nextId, ct, hash_bytes d⟩])
          = some ⟨db.nextId + 1, u, "images/" ++ toString db.nextId, ct, hash_bytes d⟩ := by
        rw [List.find?_append, hf, Option.none_or]
        exact List.find?_cons_of_pos _ (by simp)
      rcases hc2 with ⟨ex2, hf2, hr2, hdb2⟩ | ⟨hf2, hm2⟩
      · rw [hrow] at hf2
        obtain rfl := Option.some.inj hf2
        rw [hr1, hr2, hdb]
        exact ⟨rfl, rfl, hdb2⟩
      · rw [hrow] at hf2
        exact absurd hf2 (by simp)
  · intro u1 u2 ct ct' r1 db1 r2 db2 hkeys hne h1 h2
    obtain ⟨-, hc1⟩ := upload_image_ok_inversion db u1 d ct r1 db1 h1
    obtain ⟨-, hc2⟩ := upload_image_ok_inversion db1 u2 d ct' r2 db2 h2
    rcases hc1 with ⟨ex1, hf1, hr1, hdb⟩ | ⟨hf1, hm1⟩
    · rw [hdb] at hc2
      have hex1m : ex1 ∈ db.images := List.mem_of_find?_eq_some hf1
      rcases hc2 with ⟨ex2, hf2, hr2, hdb2⟩ | ⟨hf2, hm2⟩
      · have hex2m : ex2 ∈ db.images := List.mem_of_find?_eq_some hf2
        have hex1u : ex1.user_id = u1 := by
          have := List.find?_some hf1; simp at this; exact this.1
        have hex2u : ex2.user_id = u2 := by
          have := List.find?_some hf2; simp at this; exact this.1
        rw [hr1, hr2]
        intro hk
        simp only [] at hk
        have hex : ex1 = ex2 := List.inj_on_of_nodup_map hkeys hex1m hex2m hk
        exact hne (by rw [← hex1u, hex, hex2u])
      · obtain ⟨-, ha2, hr2, -⟩ := uploadImageMiss_ok_inversion db u2 d ct' r2 db2 hm2
        rw [hr1, hr2]
        intro hk
        simp only [] at hk
        have hmem := List.mem_map_of_mem ImageRow.object_key hex1m
        rw [hk] at hmem
        exact not_mem_objkeys_of_any_eq_false db.images _ ha2 hmem
    · obtain ⟨ha1, hb1, hr1, hdb⟩ := uploadImageMiss_ok_inversion db u1 d ct r1 db1 hm1
      rw [hdb] at hc2
      simp only [] at hc2
      rcases hc2 with ⟨ex2, hf2, hr2, hdb2⟩ | ⟨hf2, hm2⟩
      · have hex2m := List.mem_of_find?_eq_some hf2
        have hex2u : ex2.user_id = u2 := by
          have := List.find?_some hf2; simp at this; exact this.1
        rcases List.mem_append.mp hex2m with hex2db | hex2new
        · rw [hr1, hr2]
          intro hk
          simp only [] at hk
          have hmem := List.mem_map_of_mem ImageRow.object_key hex2db
          rw [← hk] at hmem
          exact not_mem_objkeys_of_any_eq_false db.images _ hb1 hmem
        · have hu : ex2.user_id = u1 := by
            have hx : ex2 = ⟨db.nextId + 1, u1, "images/" ++ toString db.nextId, ct,
                hash_bytes d⟩ := by simpa using hex2new
            rw [hx]
          exact absurd (by rw [← hu, hex2u]) hne
      · obtain ⟨-, hb2, hr2, -⟩ := uploadImageMiss_ok_inversion _ u2 d ct' r2 db2 hm2
        rw [hr1, hr2]
        intro hk
        simp only [] at hk hb2
        have hmem : ("images/" ++ toString db.nextId) ∈
            (db.images ++ [(⟨db.nextId + 1, u1, "images/" ++ toString db.nextId, ct,
              hash_bytes d⟩ : ImageRow)]).map ImageRow.object_key := by
          simp
        rw [← hk] at hb2
        exact not_mem_objkeys_of_any_eq_false _ _ hb2 hmem

/-- Witness for C4: uploading `[1, 2]` twice for owner 0 from the empty
store, and once each for owners 0 and 1. -/
theorem c4_upload_dedup_witness :
    (respA.image_id = respA.image_id ∧ respA.object_key = respA.object_key ∧ dbA = dbA)
    ∧ respA.object_key ≠ respB.object_key :=
  ⟨(c4_upload_dedup dbEmpty [1, 2]).1 0 ctPng ctPng respA dbA respA dbA rfl rfl,
   (c4_upload_dedup dbEmpty [1, 2]).2 0 1 ctPng ctPng respA dbA respB dbB (by decide)
     (by decide) rfl rfl⟩

/-- C5 counterexample: two concurrent uploads of `[1, 2]` by owner 0 both
miss the dedup lookup on the empty store; the winner's insert produces
`dbA`, and the loser's insert phase — the claim's raced second insert — then
surfaces the uniqueness violation to the caller as a 500 failure instead of
re-reading and returning the winner's record. -/
theorem c5_counterexample :
    uploadImageMiss dbA 0 [1, 2] ctPng = .error uqUserHashError := rfl

/-- C5 amended: the uniqueness constraint on (owner, content_hash) does make
the raced second insert fail distinguishably, and no two rows for the same
(owner, content) ever come to exist — but the upload code has no recovery
path: the `IntegrityError` is surfaced to the caller as a failure rather
than being answered by re-reading the winner's row. -/
theorem c5_amended_conflict_surfaces (db : DB) (u : Nat) (d : List Nat) (ct : Option String) :
    (db.images.any (fun i => i.user_id == u && i.content_hash == hash_bytes d) = true →
      uploadImageMiss db u d ct = .error uqUserHashError)
    ∧ (∀ (r : UploadResp) (db1 : DB),
        (db.images.map (fun i => (i.user_id, i.content_hash))).Nodup →
        upload_image db u d ct = .ok (r, db1) →
        (db1.images.map (fun i => (i.user_id, i.content_hash))).Nodup) := by
  constructor
  · intro h
    unfold uploadImageMiss
    simp only [upload_image_bytes, insertImageRow]
    rw [if_pos h]
  · intro r db1 hnd h
    obtain ⟨-, hc⟩ := upload_image_ok_inversion db u d ct r db1 h
    rcases hc with ⟨ex, hf, hr, hdb⟩ | ⟨hf, hm⟩
    · rw [hdb]; exact hnd
    · obtain ⟨ha, hb, hr, hdb⟩ := uploadImageMiss_ok_inversion db u d ct r db1 hm
      rw [hdb]
      simp only [List.map_append, List.map_cons, List.map_nil]
      refine List.Nodup.append hnd (List.nodup_singleton _) ?_
      intro p hp hq
      have hpq : p = (u, hash_bytes d) := by simpa using hq
      subst hpq
      obtain ⟨i, hi, hpair⟩ := List.mem_map.mp hp
      have hany := List.any_eq_false.mp ha i hi
      apply hany
      have h1 : i.user_id = u := congrArg Prod.fst hpair
      have h2 : i.content_hash = hash_bytes d := congrArg Prod.snd hpair
      simp [h1, h2]

/-- Witness for C5's amended statement: the raced insert into `dbA` fails
with the surfaced `IntegrityError`, and a successful upload from the empty
store preserves (owner, content) uniqueness. -/
theorem c5_amended_witness :
    uploadImageMiss dbA 0 [1, 2] ctPng = .error uqUserHashError
    ∧ (dbA.images.map (fun i => (i.user_id, i.content_hash))).Nodup :=
  ⟨(c5_amended_conflict_surfaces dbA 0 [1, 2] ctPng).1 (by decide),
   (c5_amended_conflict_surfaces dbEmpty 0 [1, 2] ctPng).2 respA dbA (by decide) rfl⟩

/-! ### Cache completion under a race (C3) -/

/-- C3 counterexample: completing a reservation for fingerprint `"k"` after
another completion for `"k"` has already durably landed (`dbC`) is not a
no-op: the insert violates the `cache_key` unique constraint and the call
fails with the surfaced `IntegrityError`. -/
theorem c3_counterexample :
    completeCache dbC rowRes false (Json.obj [("b", Json.null)]) = .error uqCacheKeyError := rfl

/-- C3 amended: when another completion for the same fingerprint has already
landed, a subsequent completion of a reservation is not a caller-visible
no-op — it fails with the surfaced uniqueness-violation error and leaves no
new state — while the already-landed result remains the stored one, and any
completion that does succeed preserves at most one stored row (hence at most
one externally visible stored result) per fingerprint. -/
theorem c3_amended_completion_conflict (db : DB) (row : CacheRow) (v : Json) :
    (db.cache.any (fun r => r.cache_key == row.cache_key) = true →
      completeCache db row false v = .error uqCacheKeyError)
    ∧ (∀ (pers : Bool) (db1 : DB),
        (db.cache.map CacheRow.cache_key).Nodup →
        completeCache db row pers v = .ok db1 →
        (db1.cache.map CacheRow.cache_key).Nodup) := by
  constructor
  · intro h
    unfold completeCache insertCacheRow
    rw [if_neg (by simp : ¬ (false = true)), if_pos h]
  · intro pers db1 hnd h
    cases pers with
    | true =>
      unfold completeCache at h
      rw [if_pos rfl] at h
      simp only [Except.ok.injEq] at h
      rw [← h]
      have : (db.cache.map
          (fun r => if r.cache_key == row.cache_key then
            { row with response := some v } else r)).map CacheRow.cache_key
          = db.cache.map CacheRow.cache_key := by
        rw [List.map_map]
        apply List.map_congr_left
        intro r _
        by_cases hr : r.cache_key = row.cache_key
        · simp [hr]
        · simp [hr]
      rw [this]
      exact hnd
    | false =>
      unfold completeCache insertCacheRow at h
      rw [if_neg (by simp : ¬ (false = true))] at h
      by_cases hc : db.cache.any (fun r => r.cache_key == row.cache_key) = true
      · rw [if_pos hc] at h
        exact absurd h (by simp)
      · rw [if_neg hc] at h
        simp only [Except.ok.injEq] at h
        rw [← h]
        simp only [List.map_append, List.map_cons, List.map_nil]
        refine List.Nodup.append hnd (List.nodup_singleton _) ?_
        intro k hk hq
        have hkk : k = row.cache_key := by simpa using hq
        subst hkk
        obtain ⟨r, hr, hrk⟩ := List.mem_map.mp hk
        have := List.any_eq_false.mp (Bool.eq_false_iff.mpr hc) r hr
        exact this (by simp [hrk])

/-- Witness for C3's amended statement at the concrete raced store `dbC`. -/
theorem c3_amended_witness :
    completeCache dbC rowRes false (Json.obj [("b", Json.null)]) = .error uqCacheKeyError
    ∧ (dbC.cache.map CacheRow.cache_key).Nodup :=
  ⟨(c3_amended_completion_conflict dbC rowRes (Json.obj [("b", Json.null)])).1 (by decide),
   (c3_amended_completion_conflict dbC rowDone (Json.obj [])).2 true dbC (by decide) rfl⟩

/-! ### Structured-query path lemmas -/

theorem mkResp_ok_inversion (v : Json) (c : Bool) (w : Json) (b : Bool)
    (h : mkResp v c = .ok (w, b)) : w = v ∧ b = c ∧ ∃ kvs, v = Json.obj kvs := by
  cases v <;> simp [mkResp] at h
  case obj kvs => exact ⟨h.1.symm, h.2.symm, kvs, rfl⟩

theorem completeCache_ok_shape (db : DB) (row : CacheRow) (pers : Bool) (v : Json)
    (db1 : DB) (h : completeCache db row pers v = .ok db1) :
    db1.images = db.images ∧ db1.blobs = db.blobs ∧ db1.nextId = db.nextId ∧
    ((pers = true ∧ db1.cache = db.cache.map
        (fun r => if r.cache_key == row.cache_key then { row with response := some v } else r))
     ∨ (pers = false ∧ db.cache.any (fun r => r.cache_key == row.cache_key) = false ∧
        db1.cache = db.cache ++ [{ row with response := some v }])) := by
  cases pers with
  | true =>
    unfold completeCache at h
    rw [if_pos rfl] at h
    simp only [Except.ok.injEq] at h
    rw [← h]
    exact ⟨rfl, rfl, rfl, Or.inl ⟨rfl, rfl⟩⟩
  | false =>
    unfold completeCache insertCacheRow at h
    rw [if_neg (by simp : ¬ (false = true))] at h
    by_cases hc : db.cache.any (fun r => r.cache_key == row.cache_key) = true
    · rw [if_pos hc] at h
      exact absurd h (by simp)
    · rw [if_neg hc] at h
      simp only [Except.ok.injEq] at h
      rw [← h]
      exact ⟨rfl, rfl, rfl, Or.inr ⟨rfl, Bool.eq_false_iff.mpr hc, rfl⟩⟩

theorem resolveImage_congr (dba dbb : DB) (himg : dbb.images = dba.images)
    (hbl : dbb.blobs = dba.blobs) (u : Nat) (iid : Option Nat) :
    resolveImage dbb u iid = resolveImage dba u iid := by
  unfold resolveImage get_image_bytes
  rw [himg, hbl]

theorem gocc_miss_inversion (db : DB) (p : String) (fs : List FieldDef)
    (ih : Option String) (row : CacheRow) (pers : Bool)
    (h : get_or_create_cache db p fs ih = .ok (none, row, pers)) :
    (pers = false ∧
      db.cache.find? (fun r => r.cache_key == cache_key_of p fs ih) = none ∧
      row = ⟨cache_key_of p fs ih, p, fieldsPayload fs, ih, none⟩)
    ∨ (pers = true ∧
      db.cache.find? (fun r => r.cache_key == cache_key_of p fs ih) = some row ∧
      row.response = some Json.null) := by
  unfold get_or_create_cache at h
  simp only [] at h
  cases hf : db.cache.find? (fun r => r.cache_key == cache_key_of p fs ih) with
  | some r0 =>
    rw [hf] at h
    simp only [] at h
    cases hre : r0.response with
    | none => rw [hre] at h; exact absurd h (by simp)
    | some v =>
      rw [hre] at h
      cases v with
      | null =>
        simp only [Except.ok.injEq, Prod.mk.injEq] at h
        exact Or.inr ⟨h.2.2.symm, by rw [← h.2.1], by rw [← h.2.1]; exact hre⟩
      | bool b => exact absurd h (by simp)
      | num s => exact absurd h (by simp)
      | str s => exact absurd h (by simp)
      | arr xs => exact absurd h (by simp)
      | obj kvs => exact absurd h (by simp)
  | none =>
    rw [hf] at h
    simp only [Except.ok.injEq, Prod.mk.injEq] at h
    exact Or.inl ⟨h.2.2.symm, rfl, h.2.1.symm⟩

theorem gocc_hit_inversion (db : DB) (p : String) (fs : List FieldDef)
    (ih : Option String) (v : Json) (row : CacheRow) (pers : Bool)
    (h : get_or_create_cache db p fs ih = .ok (some v, row, pers)) :
    db.cache.find? (fun r => r.cache_key == cache_key_of p fs ih) = some row ∧
    row.response = some v ∧ pers = true := by
  unfold get_or_create_cache at h
  simp only [] at h
  cases hf : db.cache.find? (fun r => r.cache_key == cache_key_of p fs ih) with
  | some r0 =>
    rw [hf] at h
    simp only [] at h
    cases hre : r0.response with
    | none => rw [hre] at h; exact absurd h (by simp)
    | some w =>
      rw [hre] at h
      cases w with
      | null => exact absurd h (by simp)
      | bool b =>
        simp only [Except.ok.injEq, Prod.mk.injEq] at h
        exact ⟨by rw [h.2.1], by rw [← h.2.1, hre, h.1], h.2.2.symm⟩
      | num s =>
        simp only [Except.ok.injEq, Prod.mk.injEq] at h
        exact ⟨by rw [h.2.1], by rw [← h.2.1, hre, h.1], h.2.2.symm⟩
      | str s =>
        simp only [Except.ok.injEq, Prod.mk.injEq] at h
        exact ⟨by rw [h.2.1], by rw [← h.2.1, hre, h.1], h.2.2.symm⟩
      | arr xs =>
        simp only [Except.ok.injEq, Prod.mk.injEq] at h
        exact ⟨by rw [h.2.1], by rw [← h.2.1, hre, h.1], h.2.2.symm⟩
      | obj kvs =>
        simp only [Except.ok.injEq, Prod.mk.injEq] at h
        exact ⟨by rw [h.2.1], by rw [← h.2.1, hre, h.1], h.2.2.symm⟩
  | none =>
    rw [hf] at h
    exact absurd h (by simp)

theorem sq_step_resolve_error (db : DB) (user : Nat) (payload : SQRequest)
    (completion : ModelCompletion) (e : HErr)
    (h : resolveImage db user payload.image_id = .error e) :
    structured_query db user payload completion = ⟨.error e, db, false, false, false⟩ := by
  unfold structured_query
  rw [h]

theorem sq_step_gocc_error (db : DB) (user : Nat) (payload : SQRequest)
    (completion : ModelCompletion) (res : Option (List Nat) × Option String) (e : HErr)
    (h1 : resolveImage db user payload.image_id = .ok res)
    (h2 : get_or_create_cache db payload.prompt payload.fields res.2 = .error e) :
    structured_query db user payload completion = ⟨.error e, db, true, false, false⟩ := by
  unfold structured_query
  rw [h1]
  simp only []
  rw [h2]

theorem sq_step_hit (db : DB) (user : Nat) (payload : SQRequest)
    (completion : ModelCompletion) (res : Option (List Nat) × Option String)
    (v : Json) (row : CacheRow) (pers : Bool)
    (h1 : resolveImage db user payload.image_id = .ok res)
    (h2 : get_or_create_cache db payload.prompt payload.fields res.2 = .ok (some v, row, pers)) :
    structured_query db user payload completion = ⟨mkResp v true, db, true, false, false⟩ := by
  unfold structured_query
  rw [h1]
  simp only []
  rw [h2]

theorem sq_step_schema_error (db : DB) (user : Nat) (payload : SQRequest)
    (completion : ModelCompletion) (res : Option (List Nat) × Option String)
    (row : CacheRow) (pers : Bool) (m : String)
    (h1 : resolveImage db user payload.image_id = .ok res)
    (h2 : get_or_create_cache db payload.prompt payload.fields res.2 = .ok (none, row, pers))
    (h3 : build_json_schema payload.fields = .error m) :
    structured_query db user payload completion =
      ⟨.error ⟨500, "ValueError: " ++ m⟩, db, true, true, false⟩ := by
  unfold structured_query
  rw [h1]
  simp only []
  rw [h2]
  simp only []
  rw [h3]

theorem sq_step_content_error (db : DB) (user : Nat) (payload : SQRequest)
    (completion : ModelCompletion) (res : Option (List Nat) × Option String)
    (row : CacheRow) (pers : Bool) (sch : JsonSchema) (e : HErr)
    (h1 : resolveImage db user payload.image_id = .ok res)
    (h2 : get_or_create_cache db payload.prompt payload.fields res.2 = .ok (none, row, pers))
    (h3 : build_json_schema payload.fields = .ok sch)
    (h4 : completionText completion = .error e) :
    structured_query db user payload completion = ⟨.error e, db, true, true, true⟩ := by
  unfold structured_query
  rw [h1]
  simp only []
  rw [h2]
  simp only []
  rw [h3]
  simp only []
  rw [h4]

theorem sq_step_complete_error (db : DB) (user : Nat) (payload : SQRequest)
    (completion : ModelCompletion) (res : Option (List Nat) × Option String)
    (row : CacheRow) (pers : Bool) (sch : JsonSchema) (content : MsgContent) (e : HErr)
    (h1 : resolveImage db user payload.image_id = .ok res)
    (h2 : get_or_create_cache db payload.prompt payload.fields res.2 = .ok (none, row, pers))
    (h3 : build_json_schema payload.fields = .ok sch)
    (h4 : completionText completion = .ok content)
    (h5 : completeCache db row pers
        (match parseJson (normalizeContent content) with
         | some j => j
         | none => Json.obj [("raw", contentToJson content)]) = .error e) :
    structured_query db user payload completion = ⟨.error e, db, true, true, true⟩ := by
  unfold structured_query
  rw [h1]
  simp only []
  rw [h2]
  simp only []
  rw [h3]
  simp only []
  rw [h4]
  simp only []
  rw [h5]

theorem sq_step_success (db : DB) (user : Nat) (payload : SQRequest)
    (completion : ModelCompletion) (res : Option (List Nat) × Option String)
    (row : CacheRow) (pers : Bool) (sch : JsonSchema) (content : MsgContent) (db1 : DB)
    (h1 : resolveImage db user payload.image_id = .ok res)
    (h2 : get_or_create_cache db payload.prompt payload.fields res.2 = .ok (none, row, pers))
    (h3 : build_json_schema payload.fields = .ok sch)
    (h4 : completionText completion = .ok content)
    (h5 : completeCache db row pers
        (match parseJson (normalizeContent content) with
         | some j => j
         | none => Json.obj [("raw", contentToJson content)]) = .ok db1) :
    structured_query db user payload completion =
      ⟨mkResp (match parseJson (normalizeContent content) with
               | some j => j
               | none => Json.obj [("raw", contentToJson content)]) false,
       db1, true, true, true⟩ := by
  unfold structured_query
  rw [h1]
  simp only []
  rw [h2]
  simp only []
  rw [h3]
  simp only []
  rw [h4]
  simp only []
  rw [h5]

theorem completeCache_preserves_wf (db : DB) (row : CacheRow) (pers : Bool) (v : Json)
    (db1 : DB) (h : completeCache db row pers v = .ok db1)
    (hwf : cacheWellFormed db) : cacheWellFormed db1 := by
  obtain ⟨-, -, -, hsh⟩ := completeCache_ok_shape db row pers v db1 h
  rcases hsh with ⟨-, hc⟩ | ⟨-, -, hc⟩
  · intro r hr
    rw [hc] at hr
    obtain ⟨r0, hr0, hfr⟩ := List.mem_map.mp hr
    rw [← hfr]
    by_cases hk : (r0.cache_key == row.cache_key) = true
    · rw [if_pos hk]
      rfl
    · rw [if_neg hk]
      exact hwf r0 hr0
  · intro r hr
    rw [hc] at hr
    rcases List.mem_append.mp hr with h0 | h1
    · exact hwf r h0
    · have hx : r = { row with response := some v } := by simpa using h1
      rw [hx]
      rfl

/-- C7: a structured query referencing an image that is absent, or present
but owned by a different principal, fails with the one-and-the-same 404
before any fingerprinting, caching, or external call: the outcome is the
identical `imageNotFound` error with the store untouched and the
fingerprint, schema-build, and model steps all unreached. -/
theorem c7_ownership_isolation (db : DB) (user : Nat) (payload : SQRequest)
    (completion : ModelCompletion) (iid : Nat)
    (hiid : payload.image_id = some iid)
    (hmiss : db.images.find? (fun i => i.id == iid) = none
      ∨ ∃ img, db.images.find? (fun i => i.id == iid) = some img ∧ img.user_id ≠ user) :
    structured_query db user payload completion =
      ⟨.error imageNotFound, db, false, false, false⟩ := by
  have hres : resolveImage db user payload.image_id = .error imageNotFound := by
    unfold resolveImage
    rw [hiid]
    simp only []
    rcases hmiss with hn | ⟨img, hs, hu⟩
    · rw [hn]
    · rw [hs]
      simp only []
      rw [if_neg (by simp [hu])]
  exact sq_step_resolve_error db user payload completion imageNotFound hres

/-- Witness for C7: against a store whose only image belongs to principal 5,
principal 0's requests for that image and for an absent image fail
identically. -/
theorem c7_ownership_isolation_witness :
    structured_query dbD 0 ⟨"p", [], some 7⟩ ⟨[]⟩ =
      ⟨.error imageNotFound, dbD, false, false, false⟩
    ∧ structured_query dbD 0 ⟨"p", [], some 9⟩ ⟨[]⟩ =
      ⟨.error imageNotFound, dbD, false, false, false⟩ :=
  ⟨c7_ownership_isolation dbD 0 ⟨"p", [], some 7⟩ ⟨[]⟩ 7 rfl
      (Or.inr ⟨imgForeign, by decide, by decide⟩),
   c7_ownership_isolation dbD 0 ⟨"p", [], some 9⟩ ⟨[]⟩ 9 rfl (Or.inl (by decide))⟩

/-- C9: no cache entry with an unset result is ever durably persisted (every
path of `structured_query` preserves the all-rows-filled invariant — a
reservation lives only in memory until completed with a result), and a
cache hit is only ever served from a row whose stored result is the
non-empty value returned. -/
theorem c9_no_empty_result_persisted (db : DB) (user : Nat) (payload : SQRequest)
    (completion : ModelCompletion) :
    (cacheWellFormed db → cacheWellFormed (structured_query db user payload completion).db)
    ∧ (∀ (v : Json) (out : SQOutcome), structured_query db user payload completion = out →
        out.result = .ok (v, true) → ∃ r ∈ db.cache, r.response = some v) := by
  cases h1 : resolveImage db user payload.image_id with
  | error e =>
    rw [sq_step_resolve_error db user payload completion e h1]
    exact ⟨fun hwf => hwf, fun v out hout hres => by rw [← hout] at hres; simp at hres⟩
  | ok res =>
    cases h2 : get_or_create_cache db payload.prompt payload.fields res.2 with
    | error e =>
      rw [sq_step_gocc_error db user payload completion res e h1 h2]
      exact ⟨fun hwf => hwf, fun v out hout hres => by rw [← hout] at hres; simp at hres⟩
    | ok trip =>
      obtain ⟨copt, row, pers⟩ := trip
      cases copt with
      | some w =>
        rw [sq_step_hit db user payload completion res w row pers h1 h2]
        constructor
        · exact fun hwf => hwf
        · intro v out hout hres
          rw [← hout] at hres
          simp only [] at hres
          obtain ⟨hv, -, -⟩ := mkResp_ok_inversion w true v true hres
          obtain ⟨hfind, hresp, -⟩ := gocc_hit_inversion db _ _ _ w row pers h2
          exact ⟨row, List.mem_of_find?_eq_some hfind, by rw [hresp, hv]⟩
      | none =>
        cases h3 : build_json_schema payload.fields with
        | error m =>
          rw [sq_step_schema_error db user payload completion res row pers m h1 h2 h3]
          exact ⟨fun hwf => hwf, fun v out hout hres => by rw [← hout] at hres; simp at hres⟩
        | ok sch =>
          cases h4 : completionText completion with
          | error e =>
            rw [sq_step_content_error db user payload completion res row pers sch e h1 h2 h3 h4]
            exact ⟨fun hwf => hwf, fun v out hout hres => by rw [← hout] at hres; simp at hres⟩
          | ok content =>
            cases h5 : completeCache db row pers
                (match parseJson (normalizeContent content) with
                 | some j => j
                 | none => Json.obj [("raw", contentToJson content)]) with
            | error e =>
              rw [sq_step_complete_error db user payload completion res row pers sch content e
                h1 h2 h3 h4 h5]
              exact ⟨fun hwwf => hwwf, fun v out hout hres => by rw [← hout] at hres; simp at hres⟩
            | ok db1 =>
              rw [sq_step_success db user payload completion res row pers sch content db1
                h1 h2 h3 h4 h5]
              constructor
              · intro hwf
                exact completeCache_preserves_wf db row pers _ db1 h5 hwf
              · intro v out hout hres
                rw [← hout] at hres
                simp only [] at hres
                obtain ⟨-, hb, -⟩ := mkResp_ok_inversion _ false v true hres
                exact absurd hb (by simp)

/-- Witness for C9: a store with one completed row is preserved, and a hit
against it is served from that stored non-empty result. -/
theorem c9_no_empty_result_persisted_witness :
    cacheWellFormed (structured_query dbE 0 payNoFields compEmpty).db
    ∧ ∃ r ∈ dbE.cache, r.response = some (Json.obj []) :=
  ⟨(c9_no_empty_result_persisted dbE 0 payNoFields compEmpty).1
      (by intro r hr
          have hx : r = rowHit := by simpa [dbE] using hr
          rw [hx]
          rfl),
   (c9_no_empty_result_persisted dbE 0 payNoFields compEmpty).2 (Json.obj []) _ rfl rfl⟩

theorem completeCache_insert_ok (db : DB) (row : CacheRow) (v : Json)
    (hany : db.cache.any (fun r => r.cache_key == row.cache_key) = false) :
    completeCache db row false v =
      .ok { db with cache := db.cache ++ [{ row with response := some v }] } := by
  unfold completeCache insertCacheRow
  rw [if_neg (by simp : ¬ (false = true)), if_neg (by simp [hany])]

theorem completeCache_update_ok (db : DB) (row : CacheRow) (v : Json) :
    completeCache db row true v =
      .ok { db with
            cache := db.cache.map (fun r =>
              if r.cache_key == row.cache_key then { row with response := some v } else r) } := by
  unfold completeCache
  rw [if_pos rfl]

/-- C8: when the external model's non-empty output fails to parse as JSON,
the call still succeeds with `cached=false`: the raw content is wrapped as
the single-field object `{"raw": ...}`, and that same wrapped object is both
durably stored under the request's cache row and returned to the caller. -/
theorem c8_fallback_wrapping (db : DB) (user : Nat) (payload : SQRequest)
    (completion : ModelCompletion) (res : Option (List Nat) × Option String)
    (row : CacheRow) (pers : Bool) (sch : JsonSchema) (content : MsgContent)
    (h1 : resolveImage db user payload.image_id = .ok res)
    (h2 : get_or_create_cache db payload.prompt payload.fields res.2 = .ok (none, row, pers))
    (h3 : build_json_schema payload.fields = .ok sch)
    (h4 : completionText completion = .ok content)
    (h5 : parseJson (normalizeContent content) = none) :
    ∃ db1, structured_query db user payload completion =
        ⟨.ok (Json.obj [("raw", contentToJson content)], false), db1, true, true, true⟩
      ∧ ∃ r ∈ db1.cache, r.cache_key = row.cache_key ∧
          r.response = some (Json.obj [("raw", contentToJson content)]) := by
  have hm : (match parseJson (normalizeContent content) with
             | some j => j
             | none => Json.obj [("raw", contentToJson content)]) =
      Json.obj [("raw", contentToJson content)] := by rw [h5]
  rcases gocc_miss_inversion db payload.prompt payload.fields res.2 row pers h2 with
    ⟨hp, hfind, hrow⟩ | ⟨hp, hfind, hresp⟩
  · subst hp
    have hkey : row.cache_key = cache_key_of payload.prompt payload.fields res.2 := by
      rw [hrow]
    have hany : db.cache.any (fun r => r.cache_key == row.cache_key) = false := by
      rw [hkey]
      exact any_eq_false_of_find?_eq_none _ db.cache hfind
    have h5c := completeCache_insert_ok db row
      (match parseJson (normalizeContent content) with
       | some j => j
       | none => Json.obj [("raw", contentToJson content)]) hany
    have hsq := sq_step_success db user payload completion res row false sch content _
      h1 h2 h3 h4 h5c
    rw [hm] at hsq
    refine ⟨_, hsq, ?_⟩
    refine ⟨{ row with response := some (Json.obj [("raw", contentToJson content)]) },
      ?_, rfl, rfl⟩
    simp
  · subst hp
    have h5c := completeCache_update_ok db row
      (match parseJson (normalizeContent content) with
       | some j => j
       | none => Json.obj [("raw", contentToJson content)])
    have hsq := sq_step_success db user payload completion res row true sch content _
      h1 h2 h3 h4 h5c
    rw [hm] at hsq
    have hrowmem : row ∈ db.cache := List.mem_of_find?_eq_some hfind
    refine ⟨_, hsq, ?_⟩
    refine ⟨{ row with response := some (Json.obj [("raw", contentToJson content)]) },
      ?_, rfl, rfl⟩
    simp only []
    have hmem := List.mem_map_of_mem (fun r =>
      if r.cache_key == row.cache_key then
        { row with response := some (Json.obj [("raw", contentToJson content)]) } else r) hrowmem
    simpa using hmem

/-- Witness for C8: the model answers the plain text `"hello"`, which is not
JSON; the call succeeds with the wrapped object stored and returned. -/
theorem c8_fallback_wrapping_witness :
    ∃ db1, structured_query dbEmpty 0 pay0 compHello =
        ⟨.ok (Json.obj [("raw", contentToJson (.str "hello"))], false), db1, true, true, true⟩
      ∧ ∃ r ∈ db1.cache, r.cache_key = rowP.cache_key ∧
          r.response = some (Json.obj [("raw", contentToJson (.str "hello"))]) :=
  c8_fallback_wrapping dbEmpty 0 pay0 compHello (none, none) rowP false schP (.str "hello")
    rfl rfl rfl rfl rfl

/-- C2: a structured-query call that completes successfully with
`cached=false` makes any immediately following identical call (same prompt,
fields, and image reference, whatever the model would now answer) return
`cached=true` with the same result value, leaving the store unchanged,
without building a schema and without consulting the external model. -/
theorem c2_identical_call_hits (db : DB) (user : Nat) (payload : SQRequest)
    (completion completion' : ModelCompletion) (out : SQOutcome) (v : Json)
    (hout : structured_query db user payload completion = out)
    (hres : out.result = .ok (v, false)) :
    structured_query out.db user payload completion' =
      ⟨.ok (v, true), out.db, true, false, false⟩ := by
  cases h1 : resolveImage db user payload.image_id with
  | error e =>
    rw [sq_step_resolve_error db user payload completion e h1] at hout
    rw [← hout] at hres
    simp at hres
  | ok res =>
    cases h2 : get_or_create_cache db payload.prompt payload.fields res.2 with
    | error e =>
      rw [sq_step_gocc_error db user payload completion res e h1 h2] at hout
      rw [← hout] at hres
      simp at hres
    | ok trip =>
      obtain ⟨copt, row, pers⟩ := trip
      cases copt with
      | some w =>
        rw [sq_step_hit db user payload completion res w row pers h1 h2] at hout
        rw [← hout] at hres
        simp only [] at hres
        obtain ⟨-, hb, -⟩ := mkResp_ok_inversion w true v false hres
        exact absurd hb (by simp)
      | none =>
        cases h3 : build_json_schema payload.fields with
        | error m =>
          rw [sq_step_schema_error db user payload completion res row pers m h1 h2 h3] at hout
          rw [← hout] at hres
          simp at hres
        | ok sch =>
          cases h4 : completionText completion with
          | error e =>
            rw [sq_step_content_error db user payload completion res row pers sch e
              h1 h2 h3 h4] at hout
            rw [← hout] at hres
            simp at hres
          | ok content =>
            cases h5 : completeCache db row pers
                (match parseJson (normalizeContent content) with
                 | some j => j
                 | none => Json.obj [("raw", contentToJson content)]) with
            | error e =>
              rw [sq_step_complete_error db user payload completion res row pers sch content e
                h1 h2 h3 h4 h5] at hout
              rw [← hout] at hres
              simp at hres
            | ok db1 =>
              rw [sq_step_success db user payload completion res row pers sch content db1
                h1 h2 h3 h4 h5] at hout
              rw [← hout] at hres ⊢
              simp only [] at hres ⊢
              obtain ⟨hv, -, kvs, hkvs⟩ := mkResp_ok_inversion _ false v false hres
              rw [← hv] at h5
              have hvobj : v = Json.obj kvs := hv.trans hkvs
              obtain ⟨himg, hbl, -, hshape⟩ := completeCache_ok_shape db row pers v db1 h5
              have hres1 : resolveImage db1 user payload.image_id = .ok res :=
                (resolveImage_congr db db1 himg hbl user payload.image_id).trans h1
              rcases gocc_miss_inversion db payload.prompt payload.fields res.2 row pers h2 with
                ⟨hp, hfind, hrow⟩ | ⟨hp, hfind, hresp⟩
              · subst hp
                rcases hshape with ⟨hcontra, -⟩ | ⟨-, -, hcache⟩
                · exact absurd hcontra (by simp)
                · have hkey : row.cache_key =
                      cache_key_of payload.prompt payload.fields res.2 := by rw [hrow]
                  have hfind1 : db1.cache.find?
                      (fun r => r.cache_key == cache_key_of payload.prompt payload.fields res.2)
                      = some { row with response := some v } := by
                    rw [hcache, List.find?_append, hfind, Option.none_or]
                    exact List.find?_cons_of_pos _ (by simp [hkey])
                  have hg2 : get_or_create_cache db1 payload.prompt payload.fields res.2 =
                      .ok (some v, { row with response := some v }, true) := by
                    unfold get_or_create_cache
                    simp only []
                    rw [hfind1]
                    simp only []
                    rw [hvobj]
                  rw [sq_step_hit db1 user payload completion' res v
                    { row with response := some v } true hres1 hg2, hvobj]
                  rfl
              · subst hp
                rcases hshape with ⟨-, hcache⟩ | ⟨hcontra, -⟩
                · have hkeq := List.find?_some hfind
                  have hkey : row.cache_key =
                      cache_key_of payload.prompt payload.fields res.2 := by simpa using hkeq
                  have hfind1 : db1.cache.find?
                      (fun r => r.cache_key == cache_key_of payload.prompt payload.fields res.2)
                      = some { row with response := some v } := by
                    rw [hcache, List.find?_map]
                    have hpf : ((fun r : CacheRow =>
                          r.cache_key == cache_key_of payload.prompt payload.fields res.2) ∘
                        (fun r => if r.cache_key == row.cache_key then
                          { row with response := some v } else r)) =
                        (fun r : CacheRow =>
                          r.cache_key == cache_key_of payload.prompt payload.fields res.2) := by
                      funext r
                      by_cases hr : (r.cache_key == row.cache_key) = true
                      · have hrk : r.cache_key = row.cache_key := by simpa using hr
                        simp [Function.comp, hr, hrk]
                      · simp [Function.comp, hr]
                    rw [hpf, hfind]
                    simp
                  have hg2 : get_or_create_cache db1 payload.prompt payload.fields res.2 =
                      .ok (some v, { row with response := some v }, true) := by
                    unfold get_or_create_cache
                    simp only []
                    rw [hfind1]
                    simp only []
                    rw [hvobj]
                  rw [sq_step_hit db1 user payload completion' res v
                    { row with response := some v } true hres1 hg2, hvobj]
                  rfl
                · exact absurd hcontra (by simp)

/-- Witness for C2: a first call on the empty store misses and stores the
model's object; an immediately following identical call (with a different
would-be model answer) hits with the same result and touches nothing. -/
theorem c2_identical_call_hits_witness :
    structured_query (structured_query dbEmpty 0 pay0 compJson).db 0 pay0 compOther =
      ⟨.ok (Json.obj [("a", Json.str "b")], true),
       (structured_query dbEmpty 0 pay0 compJson).db, true, false, false⟩ :=
  c2_identical_call_hits dbEmpty 0 pay0 compJson compOther _ (Json.obj [("a", Json.str "b")])
    rfl rfl
